import Mathlib

/-!
Verification of the ripple-server metrics aggregation pipeline.

Shallow embedding of the metrics-aggregation worker (`src/unnamed` aggregator
binary, `worker` function) and the dashboard statistics calculator
(`src/db/agent_repository.go`, `UIRepository.GetDashboardStats` and its
helpers) of the `pyljain/ripple-server` repository.

Modelling conventions:
* Mongo ObjectIDs are modelled as `Nat` (the code only compares them for
  equality and uses their hex string as a map key).
* Timestamps (`created`, `recorded_at`, `time.Now()`) are modelled as `Int`
  seconds.  `time.Date(y, m, d, 0, 0, 0, 0, loc)` (start of the calendar day)
  is modelled as `now - now.emod 86400`; the only property the code relies on
  is that the start of the day is not after `now`, which holds in every fixed
  timezone offset.
* Go `float64` arithmetic is modelled exactly over `ℚ`.  The one place the
  float representation itself matters — the possible NaN in the success-rate
  division — is never reached by the code (proved below), so the `ℚ` model is
  faithful on every executed path.
* The Mongo store is an external collaborator.  Documents in the `agent_runs`
  collection carry a `time_taken` field of heterogeneous BSON type (the Go
  struct declares `string`, `GetRecentActivity` asserts `float64`), modelled
  by `BsonTimeValue`.  The aggregation-pipeline operators used by the code are
  modelled with their documented MongoDB semantics:
  `$replaceAll` demands a string (or null) input and errors otherwise;
  `$toDouble` errors on an unparseable string; `$avg` ignores non-numeric
  values; `$sum` adds numeric values; a failing operator fails the whole
  aggregation query.
* Fallible database operations are modelled with `Except`/`Option`; injected
  store failures for the worker's five operations are a `QueryFaults` record.
* Rendering of floats with `fmt.Sprintf("%.1f"/"%.2f")` is not modelled (pure
  output formatting); integer rendering (`%d`, `%03d`, `formatNumber`) is
  modelled exactly.
-/

deriving instance DecidableEq for Except

/-- BSON value stored in the `time_taken` field of an `agent_runs` document:
either a string (as declared by `models.AgentRun.TimeTaken`), a numeric
value (as asserted by `GetRecentActivity`), or null/missing. -/
inductive BsonTimeValue where
  | str : String → BsonTimeValue
  | num : ℚ → BsonTimeValue
  | null
deriving DecidableEq, Repr

/-- `models.Agent` (the fields the aggregation core reads). -/
structure Agent where
  id : Nat
  name : String
  project : String
deriving DecidableEq, Repr

/-- `models.AgentVersion` (the fields the aggregation core reads).  The Go
worker reads `agentVersion.Status`, so a status field is part of the
document model. -/
structure AgentVersion where
  id : Nat
  agentId : Nat
  version : String
  status : String
  cluster : String
  tools : List String
  models : List String
deriving DecidableEq, Repr

/-- `models.AgentRun` (the fields the aggregation core reads). -/
structure AgentRun where
  agentId : Nat
  versionId : Nat
  created : Int
  status : String
  timeTaken : BsonTimeValue
  cost : ℚ
  recordedAt : Int
deriving DecidableEq, Repr

/-- `models.AgentVersionMetrics`: the materialized summary document upserted
by the aggregation worker, keyed by the version id. -/
structure AgentVersionMetrics where
  id : Nat
  name : String
  project : String
  status : String
  lastSeen : Int
  version : String
  averageRunTime : ℚ
  successRate : ℚ
  totalRuns : Nat
  spend : ℚ
  tools : List String
  models : List String
  cluster : String
deriving DecidableEq, Repr

/-- Result of one unit of work in the aggregation worker:
`upserted m` — the metrics document written by the final `UpdateOne`;
`skipped` — a store operation failed, the failure was logged and the unit
abandoned (`wg.Done(); continue`), leaving the summary store untouched;
`crashed` — the worker dereferenced a nil `*models.Agent`
(`work.agent.Name`), a runtime panic that aborts the whole process. -/
inductive WorkerOutcome where
  | upserted : AgentVersionMetrics → WorkerOutcome
  | skipped
  | crashed
deriving DecidableEq, Repr

/-- Injected failures for the five store operations a worker unit performs,
in program order: the run-count query, the last-seen `FindOne`/decode, the
error-count query, the avg/sum aggregation query (including decoding its
cursor), and the final upsert. -/
structure QueryFaults where
  countFault : Bool
  findFault : Bool
  countErrorsFault : Bool
  aggFault : Bool
  upsertFault : Bool
deriving DecidableEq, Repr

/-- All store operations succeed. -/
def noFaults : QueryFaults :=
  { countFault := false, findFault := false, countErrorsFault := false,
    aggFault := false, upsertFault := false }

/-- The `agent_runs` documents matching filter `{"version_id": vid}`. -/
def runsForVersion (runs : List AgentRun) (vid : Nat) : List AgentRun :=
  runs.filter (fun r => decide (r.versionId = vid))

/-- Numeric payload of a BSON value; `$avg` aggregates exactly these. -/
def bsonNum : BsonTimeValue → Option ℚ
  | .num q => some q
  | _ => none

/-- `FindOne({version_id: vid}, sort: {recorded_at: -1})` followed by reading
the decoded document's `RecordedAt`: `none` models `ErrNoDocuments` (no run
matches), otherwise the result is the `recorded_at` of a run maximizing
`recorded_at`, i.e. the maximum of the `recorded_at` values. -/
def lastSeenQuery (l : List Int) : Option Int :=
  match l with
  | [] => none
  | t :: ts => some (ts.foldl max t)

/-- One unit of work of the aggregation worker (`worker` in the aggregator
binary), for the dispatched `Work {agent, agentVersion}` against a fixed
snapshot `runs` of the `agent_runs` collection.  Mirrors the source order:
count, last-seen `FindOne` (sorted `recorded_at` descending; with no
matching document it yields `ErrNoDocuments` and the unit is abandoned),
error count, `$group` aggregation of `$avg time_taken` / `$sum cost`
(`$avg` over the numeric values only; a null average fails the `ok`-checked
type assertion and leaves 0), assembly of the document (dereferencing
`work.agent`, which panics when the dispatcher's map lookup missed), and
the upsert keyed by the version id. -/
def workUnit (faults : QueryFaults) (agent : Option Agent) (av : AgentVersion)
    (runs : List AgentRun) : WorkerOutcome :=
  if faults.countFault then .skipped else
  let matched := runsForVersion runs av.id
  let count := matched.length
  if faults.findFault then .skipped else
  match lastSeenQuery (matched.map (fun r => r.recordedAt)) with
  | none => .skipped
  | some lastSeenTime =>
    if faults.countErrorsFault then .skipped else
    let countErrors := (matched.filter (fun r => decide (r.status = "error"))).length
    if faults.aggFault then .skipped else
    let timeValues := matched.filterMap (fun r => bsonNum r.timeTaken)
    let avgTimeTaken : ℚ := if timeValues.isEmpty then 0
      else timeValues.sum / (timeValues.length : ℚ)
    let totalCost : ℚ := (matched.map (fun r => r.cost)).sum
    match agent with
    | none => .crashed
    | some a =>
      if faults.upsertFault then .skipped else
      .upserted {
        id := av.id
        name := a.name
        project := a.project
        status := av.status
        lastSeen := lastSeenTime
        version := av.version
        averageRunTime := avgTimeTaken
        successRate := (((count : ℚ) - (countErrors : ℚ)) / (count : ℚ)) * 100
        totalRuns := count
        spend := totalCost
        tools := av.tools
        models := av.models
        cluster := av.cluster }

/-- The metrics document written by an outcome, if any. -/
def outcomeDoc : WorkerOutcome → Option AgentVersionMetrics
  | .upserted m => some m
  | _ => none

/-- The `agent_version_metrics` collection: at most one document per
version id (`_id`). -/
abbrev MetricsStore := Nat → Option AgentVersionMetrics

/-- `UpdateOne({_id: id}, {$set: avm}, upsert: true)`: every field of the
document is written, so the upsert is a full overwrite keyed by `_id`. -/
def upsertStore (s : MetricsStore) (k : Nat) (m : AgentVersionMetrics) : MetricsStore :=
  fun k' => if k' = k then some m else s k'

/-- `agentToAgentIDLookup`: the Go map built from the `agents` scan; a later
entry with the same id overwrites an earlier one, and a missing key yields
the zero value of `*models.Agent`, that is a nil pointer (`none`). -/
def agentToAgentIDLookup (agents : List Agent) : Nat → Option Agent :=
  fun id => agents.foldl (fun acc a => if a.id = id then some a else acc) none

/-- One aggregation pass: dispatch one `Work` per agent version (in a fixed
snapshot order; units are independent, so this sequential fold is a faithful
linearization of the bounded worker pool) and fold the upserts into the
summary store.  A nil-agent panic aborts the process, modelled as `error`;
a logged per-unit failure leaves the store untouched and continues. -/
def runPass (faults : Nat → QueryFaults) (agents : List Agent)
    (versions : List AgentVersion) (runs : List AgentRun)
    (store : MetricsStore) : Except String MetricsStore :=
  match versions with
  | [] => .ok store
  | av :: rest =>
    match workUnit (faults av.id) (agentToAgentIDLookup agents av.agentId) av runs with
    | .crashed => .error "runtime error: invalid memory address or nil pointer dereference"
    | .skipped => runPass faults agents rest runs store
    | .upserted m => runPass faults agents rest runs (upsertStore store av.id m)

/-- Per-version fold step describing what one unit contributes to the store
at key `k`; used to characterize `runPass`. -/
def unitStep (faults : Nat → QueryFaults) (agents : List Agent)
    (runs : List AgentRun) (k : Nat)
    (acc : Option AgentVersionMetrics) (av : AgentVersion) : Option AgentVersionMetrics :=
  match workUnit (faults av.id) (agentToAgentIDLookup agents av.agentId) av runs with
  | .upserted m => if av.id = k then some m else acc
  | _ => acc

/-! Section: Dashboard statistics (`UIRepository.GetDashboardStats`) -/

/-- `time.Date(now.Year(), now.Month(), now.Day(), 0, 0, 0, 0, now.Location())`:
start of `now`'s calendar day.  Modelled over a fixed day grid; the code
only relies on it being at most `now`. -/
def startOfDay (now : Int) : Int := now - now.emod 86400

/-- Runs with `created >= since` (the `$match {created: {$gte: since}}`
stage of `getActiveAgentsCount`). -/
def sinceRuns (runs : List AgentRun) (since : Int) : List AgentRun :=
  runs.filter (fun r => decide (since ≤ r.created))

/-- `getActiveAgentsCount`: distinct `agent_id` count among runs with
`created >= since` (`$group {_id: "$agent_id"}` then `$count`). -/
def getActiveAgentsCount (runs : List AgentRun) (since : Int) : Nat :=
  ((sinceRuns runs since).map (fun r => r.agentId)).dedup.length

/-- Runs with `start <= created < end` (the window filter shared by
`getRunsCount`, `getAvgResponseTime` and `getTotalCost`). -/
def windowRuns (runs : List AgentRun) (start stop : Int) : List AgentRun :=
  runs.filter (fun r => decide (start ≤ r.created) && decide (r.created < stop))

/-- `getRunsCount`: `CountDocuments({created: {$gte: start, $lt: end}})`. -/
def getRunsCount (runs : List AgentRun) (start stop : Int) : Nat :=
  (windowRuns runs start stop).length

/-- `getTotalCost`: `$sum "$cost"` over the window. -/
def getTotalCost (runs : List AgentRun) (start stop : Int) : ℚ :=
  ((windowRuns runs start stop).map (fun r => r.cost)).sum

/-- Decimal digit test. -/
def isDigitCh (c : Char) : Bool := decide ('0' ≤ c) && decide (c ≤ '9')

/-- Value of a list of decimal digit characters. -/
def digitsVal (l : List Char) : Nat :=
  l.foldl (fun acc c => 10 * acc + (c.toNat - '0'.toNat)) 0

/-- MongoDB `$toDouble` string parsing, modelled on the unsigned decimal
forms (`"12"`, `"3.2"`) this development evaluates; any other shape is
unparseable and makes `$toDouble` error. -/
def parseDecimal (s : String) : Option ℚ :=
  match s.data.splitOn '.' with
  | [intPart] =>
    if intPart ≠ [] ∧ intPart.all isDigitCh then some (digitsVal intPart : ℚ) else none
  | [intPart, fracPart] =>
    if intPart ≠ [] ∧ fracPart ≠ [] ∧ intPart.all isDigitCh ∧ fracPart.all isDigitCh then
      some ((digitsVal intPart : ℚ) + (digitsVal fracPart : ℚ) / (10 ^ fracPart.length : ℚ))
    else none
  | _ => none

/-- The `$addFields` expression of `getAvgResponseTime`:
`{$toDouble: {$replaceAll: {input: "$time_taken", find: "s", replacement: ""}}}`.
`$replaceAll` removes every `'s'` from a string, passes null through, and
errors on any other type; `$toDouble` is the identity on numbers, null on
null, and parses-or-errors on strings.  `some q` is a numeric result seen by
`$avg`; `none` is a null skipped by `$avg`. -/
def normalizeTimeTaken (v : BsonTimeValue) : Except String (Option ℚ) :=
  match v with
  | .num _ => .error "$replaceAll requires that 'input' be a string"
  | .null => .ok none
  | .str s =>
    match parseDecimal (String.mk (s.data.filter (fun c => c ≠ 's'))) with
    | some q => .ok (some q)
    | none => .error "Failed to parse number in $convert"

/-- `exceptIsError e = true` iff the computation failed. -/
def exceptIsError {ε α : Type} : Except ε α → Bool
  | .error _ => true
  | .ok _ => false

/-- Evaluation of the `$addFields` expression over the matched documents:
the first operator error aborts the whole aggregation query. -/
def collectNormalized : List AgentRun → Except String (List (Option ℚ))
  | [] => .ok []
  | r :: rest =>
    (normalizeTimeTaken r.timeTaken).bind (fun v =>
      (collectNormalized rest).map (fun vs => v :: vs))

/-- `getAvgResponseTime`: matches the window, normalizes `time_taken` with
the expression above (an operator error fails the whole query), groups with
`$avg` over the numeric results and `$sum 1` as the document count.  With no
matching document the `$group` stage emits no row and the Go code returns 0;
with matching documents but a null average the unchecked type assertion
`results[0]["avg"].(float64)` panics, modelled as a failure. -/
def getAvgResponseTime (runs : List AgentRun) (start stop : Int) :
    Except String ℚ :=
  let matched := windowRuns runs start stop
  (collectNormalized matched).bind (fun opts =>
    let vals := opts.filterMap id
    if matched.isEmpty then .ok 0
    else if vals.isEmpty then .error "interface conversion: interface is nil, not float64"
    else .ok (vals.sum / (vals.length : ℚ)))

/-- Go's `int(x)` conversion from `float64`: truncation toward zero.  On an
exact rational `num/den` (`den > 0`) that is `Int.tdiv num den`. -/
def goInt (q : ℚ) : Int := q.num.tdiv q.den

/-- Big-endian decimal digits of `n`, with enough fuel; the embedding of
`fmt.Sprintf("%d", n)` for nonnegative `n`. -/
def decCharsAux : Nat → Nat → List Char
  | 0, _ => []
  | fuel + 1, n =>
    if n < 10 then [Nat.digitChar n]
    else decCharsAux fuel (n / 10) ++ [Nat.digitChar (n % 10)]

/-- Decimal digit characters of `n`. -/
def decChars (n : Nat) : List Char := decCharsAux (n + 1) n

/-- `fmt.Sprintf("%d", n)` for `n ≥ 0`. -/
def decStr (n : Nat) : String := String.mk (decChars n)

/-- `fmt.Sprintf("%03d", m)` for `0 ≤ m < 1000`: exactly three digits,
zero padded. -/
def pad3Chars (m : Nat) : List Char :=
  [Nat.digitChar (m / 100 % 10), Nat.digitChar (m / 10 % 10), Nat.digitChar (m % 10)]

/-- `formatNumber`: below 1000 plain `%d`; otherwise
`fmt.Sprintf("%d,%03d", n/1000, n%1000)` — a single comma before the last
three digits, whatever the magnitude of `n/1000`. -/
def formatNumber (n : Nat) : String :=
  if n < 1000 then decStr n
  else String.mk (decChars (n / 1000) ++ ',' :: pad3Chars (n % 1000))

/-- Comma insertion after every three characters, applied to a reversed
digit list (spec-side helper for thousands grouping). -/
def groupRev : List Char → List Char
  | a :: b :: c :: d :: rest => a :: b :: c :: ',' :: groupRev (d :: rest)
  | l => l

/-- Modelled from the spec: “integers use thousands-separator grouping
(e.g., 1234 → \x221,234\x22)” — a comma between every group of three digits,
for all magnitudes. -/
def specGroupedNumber (n : Nat) : String :=
  String.mk (groupRev (decChars n).reverse).reverse

/-- One dashboard stat entry.  `value` is the formatted `Value` string where
it is integer-formatted (entries 1 and 2); the `%.1fs` / `$%.2f` float
renderings of entries 3 and 4 are rendering-only and carried as the empty
string.  `changeSign` and `changeAmount` are the sign prefix and the number
substituted into the `Change` string, `raw` the `Raw` field. -/
structure StatEntry where
  title : String
  value : String
  trend : String
  changeSign : String
  changeAmount : ℚ
  raw : ℚ
deriving DecidableEq, Repr

/-- Section 1 of `GetDashboardStats` (Active Agents): current window is the
distinct-agent count of runs since `now − 48h`, comparison window since
`lastWeek = startOfDay(now) − 7d`; trend `up`/`down`/`neutral` by the sign
of the difference, `Change` shows its absolute value. -/
def activeAgentsEntry (runs : List AgentRun) (now : Int) : StatEntry :=
  let lastWeek := startOfDay now - 604800
  let last48Hours := now - 172800
  let activeAgentsNow := getActiveAgentsCount runs last48Hours
  let activeAgentsLastWeek := getActiveAgentsCount runs lastWeek
  let activeAgentsDiff : Int := (activeAgentsNow : Int) - (activeAgentsLastWeek : Int)
  { title := "Active Agents", value := decStr activeAgentsNow
    trend := if activeAgentsDiff < 0 then "down"
      else if activeAgentsDiff = 0 then "neutral" else "up"
    changeSign := if activeAgentsDiff < 0 then ""
      else if activeAgentsDiff = 0 then "" else "+"
    changeAmount := (activeAgentsDiff.natAbs : ℚ)
    raw := (activeAgentsNow : ℚ) }

/-- Section 2 of `GetDashboardStats` (Total Runs Today): run counts in
`[today, now)` vs `[yesterday, today)`; percent change guarded by
`if runsYesterday > 0` (otherwise it stays 0); trend by the sign of the
percent change; `Change` shows `abs(int(percent))`. -/
def runsTodayEntry (runs : List AgentRun) (now : Int) : StatEntry :=
  let today := startOfDay now
  let yesterday := today - 86400
  let runsToday := getRunsCount runs today now
  let runsYesterday := getRunsCount runs yesterday today
  let runsPercentChange : ℚ := if 0 < runsYesterday then
    (((runsToday : ℚ) - (runsYesterday : ℚ)) / (runsYesterday : ℚ)) * 100 else 0
  { title := "Total Runs Today", value := formatNumber runsToday
    trend := if runsPercentChange < 0 then "down"
      else if runsPercentChange = 0 then "neutral" else "up"
    changeSign := if runsPercentChange < 0 then ""
      else if runsPercentChange = 0 then "" else "+"
    changeAmount := ((goInt runsPercentChange).natAbs : ℚ)
    raw := (runsToday : ℚ) }

/-- Section 3 of `GetDashboardStats` (Avg Response Time), as a function of
the two (already fetched) window averages: `responseDiff = prev − now`
starts as trend `down` / sign `-` (the source comment reads “Lower response
time is better”), flips to `up` / `+` when the difference is negative
(response time increased), neutral when equal; `Change` shows the absolute
difference. -/
def responseEntry (avgResponseTimeNow avgResponseTimePrev : ℚ) : StatEntry :=
  let diff0 := avgResponseTimePrev - avgResponseTimeNow
  { title := "Avg Response Time", value := ""
    trend := if diff0 < 0 then "up"
      else if diff0 = 0 then "neutral" else "down"
    changeSign := if diff0 < 0 then "+"
      else if diff0 = 0 then "" else "-"
    changeAmount := if diff0 < 0 then -diff0 else diff0
    raw := avgResponseTimeNow }

/-- Section 4 of `GetDashboardStats` (Total Cost Today): cost sums in
`[today, now)` vs `[yesterday, today)`, with the same guarded percent
change and trend logic as Total Runs Today. -/
def costTodayEntry (runs : List AgentRun) (now : Int) : StatEntry :=
  let today := startOfDay now
  let yesterday := today - 86400
  let costToday := getTotalCost runs today now
  let costYesterday := getTotalCost runs yesterday today
  let costPercentChange : ℚ := if 0 < costYesterday then
    ((costToday - costYesterday) / costYesterday) * 100 else 0
  { title := "Total Cost Today", value := ""
    trend := if costPercentChange < 0 then "down"
      else if costPercentChange = 0 then "neutral" else "up"
    changeSign := if costPercentChange < 0 then ""
      else if costPercentChange = 0 then "" else "+"
    changeAmount := ((goInt costPercentChange).natAbs : ℚ)
    raw := getTotalCost runs today now }

/-- `GetDashboardStats` over a fixed snapshot of the `agent_runs` collection:
the four stat entries in source order.  The two `getAvgResponseTime` calls
are the only fallible sub-queries; their failure fails the whole request. -/
def getDashboardStats (runs : List AgentRun) (now : Int) :
    Except String (List StatEntry) :=
  let lastHour := now - 3600
  (getAvgResponseTime runs lastHour now).bind (fun avgResponseTimeNow =>
  (getAvgResponseTime runs (lastHour - 3600) lastHour).bind (fun avgResponseTimePrev =>
    .ok [activeAgentsEntry runs now,
      runsTodayEntry runs now,
      responseEntry avgResponseTimeNow avgResponseTimePrev,
      costTodayEntry runs now]))

/-- The formatted `Value` of the Total Runs Today entry:
`formatNumber(runsToday)` with `runsToday = getRunsCount(today, now)`. -/
def totalRunsTodayValue (runs : List AgentRun) (now : Int) : String :=
  formatNumber (getRunsCount runs (startOfDay now) now)

/-! Section: Concrete scenarios used by witnesses and counterexamples -/

/-- Only the run-count query fails. -/
def countFaultOnly : QueryFaults :=
  { countFault := true, findFault := false, countErrorsFault := false,
    aggFault := false, upsertFault := false }

def c1cAgent : Agent := { id := 1, name := "alpha", project := "demo" }

def c1cVersion : AgentVersion :=
  { id := 11, agentId := 1, version := "v1", status := "active", cluster := "c1",
    tools := [], models := [] }

def c1wAgent : Agent := { id := 3, name := "alpha", project := "demo" }

def c1wVersion : AgentVersion :=
  { id := 7, agentId := 3, version := "v1", status := "active", cluster := "c1",
    tools := [], models := [] }

/-- The spec §8 scenario: one success (cost 1.0) and one error (cost 2.0). -/
def c1wRuns : List AgentRun :=
  [{ agentId := 3, versionId := 7, created := 5, status := "success",
     timeTaken := .null, cost := 1, recordedAt := 10 },
   { agentId := 3, versionId := 7, created := 6, status := "error",
     timeTaken := .null, cost := 2, recordedAt := 20 }]

def c1wDoc : AgentVersionMetrics :=
  { id := 7, name := "alpha", project := "demo", status := "active", lastSeen := 20,
    version := "v1", averageRunTime := 0, successRate := 50, totalRuns := 2,
    spend := 3, tools := [], models := [], cluster := "c1" }

def c2cAgent : Agent := { id := 3, name := "alpha", project := "demo" }

def c2cVersion : AgentVersion :=
  { id := 7, agentId := 3, version := "v1", status := "active", cluster := "c1",
    tools := [], models := [] }

/-- One run whose event time (`created = 5`) differs from its persistence
time (`recorded_at = 10`). -/
def c2cRuns : List AgentRun :=
  [{ agentId := 3, versionId := 7, created := 5, status := "success",
     timeTaken := .null, cost := 1, recordedAt := 10 }]

def c2cDoc : AgentVersionMetrics :=
  { id := 7, name := "alpha", project := "demo", status := "active", lastSeen := 10,
    version := "v1", averageRunTime := 0, successRate := 100, totalRuns := 1,
    spend := 1, tools := [], models := [], cluster := "c1" }

def c2wAgent : Agent := { id := 3, name := "alpha", project := "demo" }

def c2wVersion : AgentVersion :=
  { id := 7, agentId := 3, version := "v1", status := "active", cluster := "c1",
    tools := [], models := [] }

def c2wRuns : List AgentRun :=
  [{ agentId := 3, versionId := 7, created := 50, status := "success",
     timeTaken := .null, cost := 1, recordedAt := 10 },
   { agentId := 3, versionId := 7, created := 4, status := "success",
     timeTaken := .null, cost := 1, recordedAt := 20 }]

def c2wDoc : AgentVersionMetrics :=
  { id := 7, name := "alpha", project := "demo", status := "active", lastSeen := 20,
    version := "v1", averageRunTime := 0, successRate := 100, totalRuns := 2,
    spend := 2, tools := [], models := [], cluster := "c1" }

/-- An agents scan that does not contain agent id 3. -/
def c3Agents : List Agent := [{ id := 99, name := "other", project := "demo" }]

/-- A version owned by the absent agent id 3 (orphaned version). -/
def c3Version : AgentVersion :=
  { id := 7, agentId := 3, version := "v1", status := "active", cluster := "c1",
    tools := [], models := [] }

def c3Runs : List AgentRun :=
  [{ agentId := 3, versionId := 7, created := 5, status := "success",
     timeTaken := .null, cost := 1, recordedAt := 10 }]

/-- `now = 200000`: the `[lastHour, now)` window holds a 1-second run and
the `[lastHour−1h, lastHour)` window a 2-second run — the average strictly
decreased. -/
def c4cRuns : List AgentRun :=
  [{ agentId := 1, versionId := 7, created := 198000, status := "success",
     timeTaken := .str "1s", cost := 1, recordedAt := 198000 },
   { agentId := 1, versionId := 7, created := 195000, status := "success",
     timeTaken := .str "2s", cost := 1, recordedAt := 195000 }]

/-- `now = 200000`: current-window average 2, previous-window average 1 —
the average strictly increased. -/
def c4wRuns : List AgentRun :=
  [{ agentId := 1, versionId := 7, created := 198000, status := "success",
     timeTaken := .str "2s", cost := 1, recordedAt := 198000 },
   { agentId := 1, versionId := 7, created := 195000, status := "success",
     timeTaken := .str "1s", cost := 1, recordedAt := 195000 }]

/-- `now = 100000` (so today starts at 86400): five runs today, none
yesterday — current value 5, comparison value 0. -/
def c5cRuns : List AgentRun :=
  [{ agentId := 1, versionId := 7, created := 90000, status := "success",
     timeTaken := .null, cost := 1, recordedAt := 90000 },
   { agentId := 2, versionId := 7, created := 90000, status := "success",
     timeTaken := .null, cost := 1, recordedAt := 90000 },
   { agentId := 3, versionId := 7, created := 90000, status := "success",
     timeTaken := .null, cost := 1, recordedAt := 90000 },
   { agentId := 4, versionId := 7, created := 90000, status := "success",
     timeTaken := .null, cost := 1, recordedAt := 90000 },
   { agentId := 5, versionId := 7, created := 90000, status := "success",
     timeTaken := .null, cost := 1, recordedAt := 90000 }]

/-- `now = 100000`: two runs today, one yesterday. -/
def c5wRuns : List AgentRun :=
  [{ agentId := 1, versionId := 7, created := 90000, status := "success",
     timeTaken := .null, cost := 1, recordedAt := 90000 },
   { agentId := 1, versionId := 7, created := 95000, status := "success",
     timeTaken := .null, cost := 1, recordedAt := 95000 },
   { agentId := 1, versionId := 7, created := 50000, status := "success",
     timeTaken := .null, cost := 1, recordedAt := 50000 }]

/-- One run with a suffixed duration string and one with a numeric
duration, both inside the queried window. -/
def c6cRuns : List AgentRun :=
  [{ agentId := 1, versionId := 7, created := 5, status := "success",
     timeTaken := .str "3.2s", cost := 1, recordedAt := 5 },
   { agentId := 1, versionId := 7, created := 6, status := "success",
     timeTaken := .num (16/5), cost := 1, recordedAt := 6 }]

def c6wRuns : List AgentRun :=
  [{ agentId := 1, versionId := 7, created := 1, status := "success",
     timeTaken := .str "1s", cost := 1, recordedAt := 1 },
   { agentId := 1, versionId := 7, created := 2, status := "success",
     timeTaken := .str "2s", cost := 1, recordedAt := 2 }]

/-- Parsed duration of each run in `c6wRuns`. -/
def c6wF (r : AgentRun) : ℚ := if r.timeTaken = .str "1s" then 1 else 2

def c7Agents : List Agent :=
  [{ id := 3, name := "alpha", project := "demo" },
   { id := 4, name := "beta", project := "demo" }]

def c7v7 : AgentVersion :=
  { id := 7, agentId := 3, version := "v1", status := "active", cluster := "c1",
    tools := [], models := [] }

def c7v9 : AgentVersion :=
  { id := 9, agentId := 4, version := "v2", status := "active", cluster := "c1",
    tools := [], models := [] }

def c7Versions : List AgentVersion := [c7v7, c7v9]

def c7Runs : List AgentRun :=
  [{ agentId := 3, versionId := 7, created := 5, status := "success",
     timeTaken := .null, cost := 1, recordedAt := 10 },
   { agentId := 4, versionId := 9, created := 6, status := "success",
     timeTaken := .null, cost := 2, recordedAt := 20 }]

/-- The run-count query fails for version 9 and only for it. -/
def c7Faults (id : Nat) : QueryFaults :=
  if id = 9 then countFaultOnly else noFaults

def c7Doc : AgentVersionMetrics :=
  { id := 7, name := "alpha", project := "demo", status := "active", lastSeen := 10,
    version := "v1", averageRunTime := 0, successRate := 100, totalRuns := 1,
    spend := 1, tools := [], models := [], cluster := "c1" }

def c8Agents : List Agent := [{ id := 3, name := "alpha", project := "demo" }]

def c8Version : AgentVersion :=
  { id := 7, agentId := 3, version := "v1", status := "active", cluster := "c1",
    tools := [], models := [] }

def c8Runs : List AgentRun :=
  [{ agentId := 3, versionId := 7, created := 5, status := "success",
     timeTaken := .null, cost := 1, recordedAt := 10 }]

def c8Doc : AgentVersionMetrics :=
  { id := 7, name := "alpha", project := "demo", status := "active", lastSeen := 10,
    version := "v1", averageRunTime := 0, successRate := 100, totalRuns := 1,
    spend := 1, tools := [], models := [], cluster := "c1" }

/-- `now = 100000`: two runs today. -/
def c9wRuns : List AgentRun :=
  [{ agentId := 1, versionId := 7, created := 90000, status := "success",
     timeTaken := .null, cost := 1, recordedAt := 90000 },
   { agentId := 1, versionId := 7, created := 95000, status := "success",
     timeTaken := .null, cost := 1, recordedAt := 95000 }]

def c10wRuns : List AgentRun :=
  [{ agentId := 1, versionId := 7, created := 99000, status := "success",
     timeTaken := .null, cost := 1, recordedAt := 99000 }]

/-! Section: Helper lemmas: the last-seen query returns the maximum recorded-at -/

theorem le_foldl_max (l : List Int) (a : Int) : a ≤ l.foldl max a := by
  induction l generalizing a with
  | nil => simp
  | cons x xs ih =>
    simpa using le_trans (le_max_left a x) (ih (max a x))

theorem foldl_max_le_of_mem (l : List Int) (a x : Int) (hx : x ∈ l) :
    x ≤ l.foldl max a := by
  induction l generalizing a with
  | nil => cases hx
  | cons y ys ih =>
    rcases List.mem_cons.mp hx with h | h
    · subst h
      simpa using le_trans (le_max_right a x) (le_foldl_max ys (max a x))
    · simpa using ih (max a y) h

theorem foldl_max_mem_or (l : List Int) (a : Int) :
    l.foldl max a = a ∨ l.foldl max a ∈ l := by
  induction l generalizing a with
  | nil => left; rfl
  | cons x xs ih =>
    rcases ih (max a x) with h | h
    · rcases max_choice a x with hm | hm
      · left; simpa [hm] using h
      · right; simp only [List.foldl_cons]
        rw [h, hm]; exact List.mem_cons_self x xs
    · right
      simp only [List.foldl_cons]
      exact List.mem_cons_of_mem x h

theorem lastSeenQuery_le (l : List Int) (t : Int) (h : lastSeenQuery l = some t) :
    ∀ x ∈ l, x ≤ t := by
  cases l with
  | nil => simp [lastSeenQuery] at h
  | cons y ys =>
    simp only [lastSeenQuery, Option.some.injEq] at h
    intro x hx
    rcases List.mem_cons.mp hx with hxy | hxy
    · subst hxy; rw [← h]; exact le_foldl_max ys x
    · rw [← h]; exact foldl_max_le_of_mem ys y x hxy

theorem lastSeenQuery_mem (l : List Int) (t : Int) (h : lastSeenQuery l = some t) :
    t ∈ l := by
  cases l with
  | nil => simp [lastSeenQuery] at h
  | cons y ys =>
    simp only [lastSeenQuery, Option.some.injEq] at h
    rcases foldl_max_mem_or ys y with hm | hm
    · rw [← h, hm]; exact List.mem_cons_self y ys
    · rw [← h]; exact List.mem_cons_of_mem y hm

theorem lastSeenQuery_eq_none (l : List Int) : lastSeenQuery l = none ↔ l = [] := by
  cases l <;> simp [lastSeenQuery]

/-! Section: C1: success rate of the upserted document -/

/-- C1 (amended).  For every agent-version: when the snapshot holds
`N > 0` runs for it, of which `E` have status `"error"`, every document the
worker upserts carries success rate `(N − E) / N × 100`; when `N = 0` the
worker upserts nothing at all — the last-seen `FindOne` yields
`ErrNoDocuments` and the unit is abandoned, so the division by zero (and
hence any NaN, or the claimed sentinel 0) is never produced. -/
theorem aggregator_success_rate (agent : Agent) (av : AgentVersion)
    (runs : List AgentRun) :
    (0 < (runsForVersion runs av.id).length →
      ∀ m, workUnit noFaults (some agent) av runs = .upserted m →
        m.successRate =
          ((((runsForVersion runs av.id).length : ℚ) -
            (((runsForVersion runs av.id).filter
              (fun r => decide (r.status = "error"))).length : ℚ)) /
            ((runsForVersion runs av.id).length : ℚ)) * 100) ∧
    ((runsForVersion runs av.id).length = 0 →
      workUnit noFaults (some agent) av runs = .skipped) := by
  constructor
  · intro hN m hm
    simp only [workUnit, noFaults, Bool.false_eq_true, if_false] at hm
    rcases hq : lastSeenQuery ((runsForVersion runs av.id).map (fun r => r.recordedAt)) with
      _ | t
    · rw [hq] at hm
      cases hm
    · rw [hq] at hm
      simp only [WorkerOutcome.upserted.injEq] at hm
      rw [← hm]
  · intro h0
    have hnil : runsForVersion runs av.id = [] := List.length_eq_zero.mp h0
    simp [workUnit, noFaults, hnil, lastSeenQuery]

/-! Section: C2: the lastSeen field of the upserted document -/

/-- C2 (amended).  Every document the worker upserts has `lastSeen`
equal to the maximum `recorded_at` timestamp among that version's runs (the
`RecordedAt` of the first run under the descending `recorded_at` sort) —
not the maximum `created` event timestamp. -/
theorem aggregator_last_seen (agent : Agent) (av : AgentVersion)
    (runs : List AgentRun) (m : AgentVersionMetrics)
    (hm : workUnit noFaults (some agent) av runs = .upserted m) :
    m.lastSeen ∈ (runsForVersion runs av.id).map (fun r => r.recordedAt) ∧
    ∀ r ∈ runsForVersion runs av.id, r.recordedAt ≤ m.lastSeen := by
  simp only [workUnit, noFaults, Bool.false_eq_true, if_false] at hm
  rcases hq : lastSeenQuery ((runsForVersion runs av.id).map (fun r => r.recordedAt)) with
    _ | t
  · rw [hq] at hm
    cases hm
  · rw [hq] at hm
    simp only [WorkerOutcome.upserted.injEq] at hm
    have hlast : m.lastSeen = t := by rw [← hm]
    constructor
    · rw [hlast]
      exact lastSeenQuery_mem _ t hq
    · intro r hr
      rw [hlast]
      exact lastSeenQuery_le _ t hq r.recordedAt (List.mem_map_of_mem _ hr)

/-! Section: C3: orphaned version — nil agent dereference -/

/-- C3 (code bug).  For an agent-version whose agent id is absent from
the in-memory agents map, the dispatcher's map lookup yields the zero value
of `*models.Agent` — a nil pointer — and the worker, once the version has at
least one run, dereferences it (`work.agent.Name`) while assembling the
metrics document: the unit does not complete with empty name/project, it
panics and aborts the process. -/
theorem aggregator_orphan_crash :
    agentToAgentIDLookup c3Agents c3Version.agentId = none ∧
    workUnit noFaults (agentToAgentIDLookup c3Agents c3Version.agentId)
      c3Version c3Runs = .crashed := by decide

/-! Section: Aggregation pass: store characterization -/

/-- The value of the summary store at any key after a successful pass is the
fold of the per-unit contributions over the dispatched versions. -/
theorem runPass_char (faults : Nat → QueryFaults) (agents : List Agent)
    (runs : List AgentRun) :
    ∀ (versions : List AgentVersion) (store s' : MetricsStore),
      runPass faults agents versions runs store = .ok s' →
      ∀ k, s' k = versions.foldl (unitStep faults agents runs k) (store k) := by
  intro versions
  induction versions with
  | nil =>
    intro store s' h k
    simp only [runPass, Except.ok.injEq] at h
    rw [← h]
    rfl
  | cons av rest ih =>
    intro store s' h k
    simp only [runPass] at h
    rcases hw : workUnit (faults av.id) (agentToAgentIDLookup agents av.agentId) av runs with
      m | _ | _
    · rw [hw] at h
      have := ih (upsertStore store av.id m) s' h k
      rw [this]
      simp only [List.foldl_cons, unitStep, hw]
      by_cases hk : av.id = k
      · subst hk
        simp [upsertStore]
      · have : ¬ k = av.id := fun hkk => hk hkk.symm
        simp [upsertStore, hk, this]
    · rw [hw] at h
      have := ih store s' h k
      rw [this]
      simp [List.foldl_cons, unitStep, hw]
    · rw [hw] at h
      cases h

/-- Whether a pass succeeds does not depend on the initial store contents. -/
theorem runPass_ok_exists (faults : Nat → QueryFaults) (agents : List Agent)
    (runs : List AgentRun) :
    ∀ (versions : List AgentVersion) (store s' : MetricsStore),
      runPass faults agents versions runs store = .ok s' →
      ∀ t : MetricsStore, ∃ t' : MetricsStore,
        runPass faults agents versions runs t = .ok t' := by
  intro versions
  induction versions with
  | nil =>
    intro store s' _ t
    exact ⟨t, rfl⟩
  | cons av rest ih =>
    intro store s' h t
    simp only [runPass] at h ⊢
    rcases hw : workUnit (faults av.id) (agentToAgentIDLookup agents av.agentId) av runs with
      m | _ | _
    · rw [hw] at h
      exact ih (upsertStore store av.id m) s' h (upsertStore t av.id m)
    · rw [hw] at h
      exact ih store s' h t
    · rw [hw] at h
      cases h

/-- If no dispatched version writes key `k`, the fold leaves any initial
value unchanged. -/
theorem foldl_unitStep_fixed (faults : Nat → QueryFaults) (agents : List Agent)
    (runs : List AgentRun) (k : Nat) :
    ∀ (l : List AgentVersion),
      (∀ av ∈ l, ∀ m,
        workUnit (faults av.id) (agentToAgentIDLookup agents av.agentId) av runs =
          .upserted m → av.id ≠ k) →
      ∀ acc, l.foldl (unitStep faults agents runs k) acc = acc := by
  intro l
  induction l with
  | nil => intro _ acc; rfl
  | cons b rest ih =>
    intro h acc
    have hstep : unitStep faults agents runs k acc b = acc := by
      unfold unitStep
      rcases hw : workUnit (faults b.id) (agentToAgentIDLookup agents b.agentId) b runs with
        m | _ | _
      · have hbk : b.id ≠ k := h b (List.mem_cons_self b rest) m hw
        simp [hbk]
      · rfl
      · rfl
    simp only [List.foldl_cons, hstep]
    exact ih (fun av hav m hm => h av (List.mem_cons_of_mem b hav) m hm) acc

/-- If some dispatched version does write key `k`, the fold forgets the
initial value. -/
theorem foldl_unitStep_initFree (faults : Nat → QueryFaults) (agents : List Agent)
    (runs : List AgentRun) (k : Nat) :
    ∀ (l : List AgentVersion),
      (∃ av ∈ l, ∃ m, av.id = k ∧
        workUnit (faults av.id) (agentToAgentIDLookup agents av.agentId) av runs =
          .upserted m) →
      ∀ a a', l.foldl (unitStep faults agents runs k) a =
        l.foldl (unitStep faults agents runs k) a' := by
  intro l
  induction l with
  | nil =>
    rintro ⟨av, hav, _⟩
    cases hav
  | cons b rest ih =>
    rintro ⟨av, hav, m, hk, hw⟩ a a'
    by_cases hb : ∃ mb, b.id = k ∧
        workUnit (faults b.id) (agentToAgentIDLookup agents b.agentId) b runs =
          .upserted mb
    · rcases hb with ⟨mb, hbk, hbw⟩
      have : unitStep faults agents runs k a b = unitStep faults agents runs k a' b := by
        unfold unitStep
        rw [hbw, hbk]
        simp
      simp only [List.foldl_cons, this]
    · have hpres : ∀ acc, unitStep faults agents runs k acc b = acc := by
        intro acc
        unfold unitStep
        rcases hbw : workUnit (faults b.id) (agentToAgentIDLookup agents b.agentId) b runs with
          mb | _ | _
        · have : b.id ≠ k := fun hbk => hb ⟨mb, hbk, hbw⟩
          simp [this]
        · rfl
        · rfl
      have havrest : av ∈ rest := by
        rcases List.mem_cons.mp hav with h | h
        · subst h
          exact absurd ⟨m, hk, hw⟩ hb
        · exact h
      simp only [List.foldl_cons, hpres a, hpres a']
      exact ih ⟨av, havrest, m, hk, hw⟩ a a'

/-- If a dispatched version with key `k` upserts `m` and version ids are
distinct, the fold at key `k` ends at `some m` whatever the initial value. -/
theorem foldl_unitStep_writer (faults : Nat → QueryFaults) (agents : List Agent)
    (runs : List AgentRun) (k : Nat) :
    ∀ (l : List AgentVersion) (av : AgentVersion) (m : AgentVersionMetrics),
      av ∈ l → av.id = k →
      (l.map (fun x => x.id)).Nodup →
      workUnit (faults av.id) (agentToAgentIDLookup agents av.agentId) av runs =
        .upserted m →
      ∀ acc, l.foldl (unitStep faults agents runs k) acc = some m := by
  intro l
  induction l with
  | nil =>
    intro av m hav
    cases hav
  | cons b rest ih =>
    intro av m hav hk hnodup hw acc
    rcases List.mem_cons.mp hav with heq | hmem
    · subst heq
      have hstep : unitStep faults agents runs k acc av = some m := by
        unfold unitStep
        rw [hw]
        simp [hk]
      simp only [List.foldl_cons, hstep]
      apply foldl_unitStep_fixed
      intro c hc mc hcw hck
      have hnotin : av.id ∉ rest.map (fun x => x.id) := (List.nodup_cons.mp hnodup).1
      apply hnotin
      have : c.id = av.id := by rw [hck, hk]
      rw [← this]
      exact List.mem_map_of_mem _ hc
    · have hbk : b.id ≠ k := by
        have hnotin : b.id ∉ rest.map (fun x => x.id) := (List.nodup_cons.mp hnodup).1
        intro hbkk
        apply hnotin
        rw [hbkk, ← hk]
        exact List.mem_map_of_mem _ hmem
      have hstep : ∀ a, unitStep faults agents runs k a b = a := by
        intro a
        unfold unitStep
        rcases hbw : workUnit (faults b.id) (agentToAgentIDLookup agents b.agentId) b runs with
          mb | _ | _
        · simp [hbk]
        · rfl
        · rfl
      simp only [List.foldl_cons, hstep]
      exact ih av m hmem hk (List.nodup_cons.mp hnodup).2 hw acc

/-! Section: C7: per-unit failure isolation -/

/-- C7 (confirmed).  During an aggregation pass over versions with
distinct ids in which the per-unit computation for `fv` fails with a logged
store error (run-count/find/decode/aggregate/upsert — outcome `skipped`)
and every other unit runs with a fault-free store: the pass leaves `fv`'s
summary document unchanged (or absent), no sibling unit is cancelled, and
every other version whose fault-free unit computes document `m` still ends
with exactly `m` upserted under its key. -/
theorem aggregation_unit_isolation
    (faults : Nat → QueryFaults) (agents : List Agent)
    (versions : List AgentVersion) (runs : List AgentRun)
    (store s' : MetricsStore) (fv : AgentVersion)
    (hmem : fv ∈ versions)
    (hnodup : (versions.map (fun av => av.id)).Nodup)
    (hok : runPass faults agents versions runs store = .ok s')
    (hfail : workUnit (faults fv.id) (agentToAgentIDLookup agents fv.agentId) fv runs =
      .skipped)
    (hothers : ∀ av ∈ versions, av.id ≠ fv.id → faults av.id = noFaults) :
    s' fv.id = store fv.id ∧
    ∀ av ∈ versions, av.id ≠ fv.id →
      ∀ m, workUnit noFaults (agentToAgentIDLookup agents av.agentId) av runs =
        .upserted m →
      s' av.id = some m := by
  have hchar := runPass_char faults agents runs versions store s' hok
  constructor
  · rw [hchar fv.id]
    apply foldl_unitStep_fixed
    intro av hav m hw hk
    have hinj := List.inj_on_of_nodup_map hnodup
    have heq : av = fv := hinj hav hmem (by rw [hk])
    subst heq
    rw [hfail] at hw
    cases hw
  · intro av hav hne m hw
    rw [hchar av.id]
    apply foldl_unitStep_writer faults agents runs av.id versions av m hav rfl hnodup
    · rw [hothers av hav hne]
      exact hw

/-! Section: C8: idempotence of the aggregation pass -/

/-- C8 (confirmed).  Each unit's document is a pure function of the
(unchanged) agents, versions and runs — not of the summary store — so
running the pass a second time over the store produced by the first pass
succeeds and reproduces exactly the same store: for every agent-version the
second pass produces a summary document identical to the first pass's. -/
theorem aggregation_idempotent
    (faults : Nat → QueryFaults) (agents : List Agent)
    (versions : List AgentVersion) (runs : List AgentRun)
    (store s1 : MetricsStore)
    (h1 : runPass faults agents versions runs store = .ok s1) :
    runPass faults agents versions runs s1 = .ok s1 := by
  obtain ⟨s2, h2⟩ := runPass_ok_exists faults agents runs versions store s1 h1 s1
  have hchar1 := runPass_char faults agents runs versions store s1 h1
  have hchar2 := runPass_char faults agents runs versions s1 s2 h2
  have hs : s2 = s1 := by
    funext k
    rw [hchar2 k]
    by_cases hwr : ∃ av ∈ versions, ∃ m, av.id = k ∧
        workUnit (faults av.id) (agentToAgentIDLookup agents av.agentId) av runs =
          .upserted m
    · rw [foldl_unitStep_initFree faults agents runs k versions hwr (s1 k) (store k)]
      exact (hchar1 k).symm
    · rw [foldl_unitStep_fixed faults agents runs k versions ?_ (s1 k)]
      intro av hav m hw hk
      exact hwr ⟨av, hav, m, hk, hw⟩
  rw [hs] at h2
  exact h2

/-! Section: Decimal rendering: formatNumber vs thousands grouping -/

theorem decCharsAux_congr : ∀ (f g n : Nat), n < f → n < g →
    decCharsAux f n = decCharsAux g n := by
  intro f
  induction f with
  | zero =>
    intro g n hf
    cases hf
  | succ f ih =>
    intro g n hf hg
    cases g with
    | zero => cases hg
    | succ g =>
      simp only [decCharsAux]
      by_cases h10 : n < 10
      · simp [h10]
      · have hdiv : n / 10 < n := Nat.div_lt_self (by omega) (by omega)
        have hf' : n / 10 < f := by omega
        have hg' : n / 10 < g := by omega
        simp only [h10, if_false]
        rw [ih g (n / 10) hf' hg']

theorem decChars_small (n : Nat) (h : n < 10) :
    decChars n = [Nat.digitChar n] := by
  simp [decChars, decCharsAux, h]

theorem decChars_step (n : Nat) (h : 10 ≤ n) :
    decChars n = decChars (n / 10) ++ [Nat.digitChar (n % 10)] := by
  have h10 : ¬ n < 10 := by omega
  show decCharsAux (n + 1) n = _
  simp only [decCharsAux, h10, if_false]
  rw [decCharsAux_congr n (n / 10 + 1) (n / 10)
    (by have := Nat.div_lt_self (by omega : 0 < n) (by omega : 1 < 10); omega)
    (Nat.lt_succ_self _)]
  rfl

theorem decChars_len_of_lt10 (n : Nat) (h : n < 10) : (decChars n).length = 1 := by
  rw [decChars_small n h]
  rfl

theorem decChars_len_le2 (n : Nat) (h : n < 100) : (decChars n).length ≤ 2 := by
  by_cases h10 : n < 10
  · rw [decChars_len_of_lt10 n h10]
    omega
  · rw [decChars_step n (by omega)]
    have : n / 10 < 10 := by omega
    simp [decChars_len_of_lt10 _ this]

theorem decChars_len_le3 (n : Nat) (h : n < 1000) : (decChars n).length ≤ 3 := by
  by_cases h10 : n < 10
  · rw [decChars_len_of_lt10 n h10]
    omega
  · rw [decChars_step n (by omega)]
    have : n / 10 < 100 := by omega
    have := decChars_len_le2 (n / 10) this
    simp only [List.length_append, List.length_cons, List.length_nil]
    omega

theorem decChars_ne_nil (n : Nat) : decChars n ≠ [] := by
  by_cases h10 : n < 10
  · rw [decChars_small n h10]
    simp
  · rw [decChars_step n (by omega)]
    simp

theorem decChars_thousand (n : Nat) (h : 1000 ≤ n) :
    decChars n = decChars (n / 1000) ++ pad3Chars (n % 1000) := by
  have h1 : decChars n = decChars (n / 10) ++ [Nat.digitChar (n % 10)] :=
    decChars_step n (by omega)
  have h2 : decChars (n / 10) = decChars (n / 10 / 10) ++ [Nat.digitChar (n / 10 % 10)] :=
    decChars_step (n / 10) (by omega)
  have h3 : decChars (n / 10 / 10) =
      decChars (n / 10 / 10 / 10) ++ [Nat.digitChar (n / 10 / 10 % 10)] :=
    decChars_step (n / 10 / 10) (by omega)
  rw [h1, h2, h3]
  have e1 : n / 10 / 10 / 10 = n / 1000 := by omega
  have e2 : n / 10 / 10 % 10 = n % 1000 / 100 % 10 := by omega
  have e3 : n / 10 % 10 = n % 1000 / 10 % 10 := by omega
  have e4 : n % 10 = n % 1000 % 10 := by omega
  rw [e1, e2, e3, e4]
  simp [pad3Chars]

theorem groupRev_short (l : List Char) (h : l.length ≤ 3) : groupRev l = l := by
  match l with
  | [] => rfl
  | [a] => rfl
  | [a, b] => rfl
  | [a, b, c] => rfl
  | a :: b :: c :: d :: rest => simp at h

theorem groupRev_append3 (a : List Char) (x y z : Char)
    (hne : a ≠ []) (hlen : a.length ≤ 3) :
    (groupRev ((a ++ [x, y, z]).reverse)).reverse = a ++ ',' :: [x, y, z] := by
  rcases List.exists_cons_of_ne_nil (by
    intro hrev
    exact hne (List.reverse_eq_nil_iff.mp hrev)) with ⟨e, rest, hrest⟩
  have hrev : (a ++ [x, y, z]).reverse = z :: y :: x :: (e :: rest) := by
    rw [List.reverse_append, hrest]
    rfl
  rw [hrev]
  have hshort : groupRev (e :: rest) = e :: rest := by
    apply groupRev_short
    have : (e :: rest).length = a.length := by
      rw [← hrest, List.length_reverse]
    omega
  show (z :: y :: x :: ',' :: groupRev (e :: rest)).reverse = _
  rw [hshort, ← hrest]
  simp

/-- `formatNumber` coincides with spec-style thousands grouping exactly on
the range `n < 1000000`. -/
theorem formatNumber_grouped (n : Nat) (h : n < 1000000) :
    formatNumber n = specGroupedNumber n := by
  by_cases h1000 : n < 1000
  · have hlen : (decChars n).length ≤ 3 := decChars_len_le3 n h1000
    unfold formatNumber specGroupedNumber decStr
    rw [if_pos h1000]
    rw [groupRev_short _ (by simpa using hlen)]
    simp
  · unfold formatNumber specGroupedNumber
    rw [if_neg h1000]
    have hq : n / 1000 < 1000 := by omega
    have hthous := decChars_thousand n (by omega)
    rcases hp : pad3Chars (n % 1000) with _ | ⟨x, rest⟩
    · simp [pad3Chars] at hp
    · rcases rest with _ | ⟨y, rest2⟩
      · simp [pad3Chars] at hp
      · rcases rest2 with _ | ⟨z, rest3⟩
        · simp [pad3Chars] at hp
        · rcases rest3 with _ | _
          · rw [hthous, hp]
            rw [groupRev_append3 (decChars (n / 1000)) x y z
              (decChars_ne_nil _) (decChars_len_le3 _ hq)]
          · simp [pad3Chars] at hp

/-! Section: Dashboard: shape of a successful response -/

/-- A successful `GetDashboardStats` response is exactly the four entries in
source order, built from the two average-response-time query results. -/
theorem getDashboardStats_entries (runs : List AgentRun) (now : Int)
    (l : List StatEntry) (hd : getDashboardStats runs now = .ok l) :
    ∃ aN aP, getAvgResponseTime runs (now - 3600) now = .ok aN ∧
      getAvgResponseTime runs (now - 3600 - 3600) (now - 3600) = .ok aP ∧
      l = [activeAgentsEntry runs now, runsTodayEntry runs now,
        responseEntry aN aP, costTodayEntry runs now] := by
  simp only [getDashboardStats] at hd
  rcases h1 : getAvgResponseTime runs (now - 3600) now with e1 | a1
  · rw [h1] at hd
    simp only [Except.bind] at hd
    cases hd
  · rw [h1] at hd
    simp only [Except.bind] at hd
    rcases h2 : getAvgResponseTime runs (now - 3600 - 3600) (now - 3600) with e2 | a2
    · rw [h2] at hd
      simp only [Except.bind] at hd
      cases hd
    · rw [h2] at hd
      simp only [Except.bind, Except.ok.injEq] at hd
      exact ⟨a1, a2, rfl, rfl, hd.symm⟩

/-! Section: C9: thousands-separator grouping of Total Runs Today -/

/-- C9 (amended).  The formatted Total Runs Today value
(`formatNumber(runsToday)`) renders the count with thousands-separator
grouping for every count below 1,000,000; for larger counts `formatNumber`
emits only one comma, before the last three digits
(`fmt.Sprintf("%d,%03d", n/1000, n%1000)`), so grouping fails there. -/
theorem total_runs_value_grouped (runs : List AgentRun) (now : Int)
    (h : getRunsCount runs (startOfDay now) now < 1000000) :
    totalRunsTodayValue runs now =
      specGroupedNumber (getRunsCount runs (startOfDay now) now) ∧
    ∀ l, getDashboardStats runs now = .ok l →
      (l.get? 1).map (fun entry => entry.value) = some (totalRunsTodayValue runs now) := by
  constructor
  · exact formatNumber_grouped _ h
  · intro l hd
    rcases getDashboardStats_entries runs now l hd with ⟨aN, aP, _, _, hl⟩
    rw [hl]
    rfl

/-! Section: C10: the Active Agents windows nest -/

theorem active_agents_mono (runs : List AgentRun) {s1 s2 : Int} (h : s1 ≤ s2) :
    getActiveAgentsCount runs s2 ≤ getActiveAgentsCount runs s1 := by
  unfold getActiveAgentsCount
  rw [← List.card_toFinset, ← List.card_toFinset]
  apply Finset.card_le_card
  intro x hx
  simp only [List.mem_toFinset, List.mem_map] at hx ⊢
  rcases hx with ⟨r, hr, hxr⟩
  refine ⟨r, ?_, hxr⟩
  simp only [sinceRuns, List.mem_filter, decide_eq_true_eq] at hr ⊢
  exact ⟨hr.1, le_trans h hr.2⟩

/-- C10 (confirmed).  For every run snapshot and every current time the
Active Agents comparison cutoff (`startOfDay(now) − 7d`) is at most the
current cutoff (`now − 48h`), so the comparison window contains the current
window, the distinct-agent count since last week is at least the count of
the last 48 hours, the difference is never positive, and the entry's trend
is never `"up"` — and a successful dashboard response carries exactly this
entry first. -/
theorem active_agents_trend_never_up (runs : List AgentRun) (now : Int) :
    getActiveAgentsCount runs (now - 172800) ≤
      getActiveAgentsCount runs (startOfDay now - 604800) ∧
    (activeAgentsEntry runs now).trend ≠ "up" ∧
    ∀ l, getDashboardStats runs now = .ok l →
      l.get? 0 = some (activeAgentsEntry runs now) := by
  have hcut : startOfDay now - 604800 ≤ now - 172800 := by
    have hn : 0 ≤ now.emod 86400 := Int.emod_nonneg now (by norm_num)
    have hl : now.emod 86400 < 86400 := Int.emod_lt_of_pos now (by norm_num)
    unfold startOfDay
    omega
  have hmono := active_agents_mono runs hcut
  refine ⟨hmono, ?_, ?_⟩
  · simp only [activeAgentsEntry]
    have hdle : ((getActiveAgentsCount runs (now - 172800) : Int) -
        (getActiveAgentsCount runs (startOfDay now - 604800) : Int)) ≤ 0 := by
      have : (getActiveAgentsCount runs (now - 172800) : Int) ≤
          (getActiveAgentsCount runs (startOfDay now - 604800) : Int) := by
        exact_mod_cast hmono
      omega
    by_cases hneg : ((getActiveAgentsCount runs (now - 172800) : Int) -
        (getActiveAgentsCount runs (startOfDay now - 604800) : Int)) < 0
    · simp only [hneg, if_true]
      decide
    · have h0 : ((getActiveAgentsCount runs (now - 172800) : Int) -
          (getActiveAgentsCount runs (startOfDay now - 604800) : Int)) = 0 := by omega
      simp only [hneg, if_false, h0, if_true]
      decide
  · intro l hd
    rcases getDashboardStats_entries runs now l hd with ⟨aN, aP, _, _, hl⟩
    rw [hl]
    rfl

/-! Section: C4: Avg Response Time trend direction -/

/-- C4 (amended).  In the dashboard response the Avg Response Time entry
is built from the two window averages, and its trend is *not* inverted in
favour of decreases: when the current-window average strictly decreases the
trend is `"down"` (sign `"-"`); `"up"` (sign `"+"`) is reported exactly when
the average strictly increases; the reported delta is the absolute
difference of the two averages, as claimed. -/
theorem dashboard_response_trend (runs : List AgentRun) (now : Int)
    (aN aP : ℚ) (l : List StatEntry)
    (h1 : getAvgResponseTime runs (now - 3600) now = .ok aN)
    (h2 : getAvgResponseTime runs (now - 3600 - 3600) (now - 3600) = .ok aP)
    (hd : getDashboardStats runs now = .ok l) :
    l.get? 2 = some (responseEntry aN aP) ∧
    (aN < aP → (responseEntry aN aP).trend = "down" ∧
      (responseEntry aN aP).changeSign = "-") ∧
    (aP < aN → (responseEntry aN aP).trend = "up" ∧
      (responseEntry aN aP).changeSign = "+") ∧
    (aP = aN → (responseEntry aN aP).trend = "neutral") ∧
    (responseEntry aN aP).changeAmount = |aP - aN| := by
  refine ⟨?_, ?_, ?_, ?_, ?_⟩
  · rcases getDashboardStats_entries runs now l hd with ⟨aN', aP', h1', h2', hl⟩
    rw [h1] at h1'
    rw [h2] at h2'
    have hN : aN' = aN := by injection h1'.symm
    have hP : aP' = aP := by injection h2'.symm
    rw [hl, hN, hP]
    rfl
  · intro hlt
    have hpos : ¬ (aP - aN < 0) := by linarith
    have hne : ¬ (aP - aN = 0) := by intro h0; linarith
    simp only [responseEntry, hpos, if_false, hne]
    exact ⟨trivial, trivial⟩
  · intro hlt
    have hneg : aP - aN < 0 := by linarith
    simp only [responseEntry, hneg, if_true]
    exact ⟨trivial, trivial⟩
  · intro heq
    have h0 : aP - aN = 0 := by rw [heq]; ring
    have hpos : ¬ (aP - aN < 0) := by rw [h0]; norm_num
    simp only [responseEntry, hpos, if_false, h0, if_true]
    norm_num
  · by_cases hneg : aP - aN < 0
    · simp only [responseEntry, hneg, if_true]
      rw [abs_of_neg hneg]
    · simp only [responseEntry, hneg, if_false]
      rw [abs_of_nonneg (not_lt.mp hneg)]

/-! Section: C5: percent-change trends for runs and cost -/

theorem pct_neg_iff (a b : ℚ) (hb : 0 < b) :
    ((a - b) / b) * 100 < 0 ↔ a < b := by
  rw [div_mul_eq_mul_div, div_neg_iff]
  constructor
  · rintro (⟨_, hbneg⟩ | ⟨hneg, _⟩)
    · exact absurd hb (not_lt.mpr hbneg.le)
    · nlinarith
  · intro hab
    right
    exact ⟨by nlinarith, hb⟩

theorem pct_zero_iff (a b : ℚ) (hb : 0 < b) :
    ((a - b) / b) * 100 = 0 ↔ a = b := by
  rw [div_mul_eq_mul_div, div_eq_zero_iff]
  constructor
  · rintro (h | h)
    · have h0 : a - b = 0 := by
        rcases mul_eq_zero.mp h with h' | h'
        · exact h'
        · norm_num at h'
      linarith
    · exact absurd h (ne_of_gt hb)
  · intro h
    left
    rw [h]
    ring

theorem pct_pos_iff (a b : ℚ) (hb : 0 < b) :
    0 < ((a - b) / b) * 100 ↔ b < a := by
  rcases lt_trichotomy a b with h | h | h
  · have := (pct_neg_iff a b hb).mpr h
    constructor
    · intro hp
      linarith
    · intro hp
      linarith
  · have := (pct_zero_iff a b hb).mpr h
    constructor
    · intro hp
      linarith
    · intro hp
      linarith
  · constructor
    · intro _
      exact h
    · intro _
      rcases lt_trichotomy (((a - b) / b) * 100) 0 with hp | hp | hp
      · exact absurd ((pct_neg_iff a b hb).mp hp) (by linarith)
      · exact absurd ((pct_zero_iff a b hb).mp hp) (by linarith)
      · exact hp

/-- The `if < 0 / = 0 / else` trend chain of the source. -/
theorem trend_chain_iffs (p : ℚ) :
    ((if p < 0 then "down" else if p = 0 then "neutral" else "up") = "neutral" ↔
      p = 0) ∧
    ((if p < 0 then "down" else if p = 0 then "neutral" else "up") = "up" ↔
      0 < p) := by
  rcases lt_trichotomy p 0 with h | h | h
  · have hne : p ≠ 0 := ne_of_lt h
    have hnp : ¬ 0 < p := by linarith
    simp [h, hne, hnp]
  · have hnl : ¬ p < 0 := by rw [h]; norm_num
    simp [h, hnl]
  · have hne : p ≠ 0 := ne_of_gt h
    have hnl : ¬ p < 0 := by linarith
    simp [hnl, hne, h]

/-- C5 (amended).  For the Total Runs Today and Total Cost Today
entries the guarded percent change makes the trend `"neutral"` exactly when
the comparison value is not positive **or** the two values are equal, and
`"up"` exactly when the comparison value is positive **and** the current
value strictly exceeds it — in particular a zero comparison value always
reports `"neutral"`, even when the current value is larger. -/
theorem dashboard_percent_trends (runs : List AgentRun) (now : Int) :
    (((runsTodayEntry runs now).trend = "neutral" ↔
        (getRunsCount runs (startOfDay now - 86400) (startOfDay now) = 0 ∨
         getRunsCount runs (startOfDay now) now =
           getRunsCount runs (startOfDay now - 86400) (startOfDay now))) ∧
      ((runsTodayEntry runs now).trend = "up" ↔
        (0 < getRunsCount runs (startOfDay now - 86400) (startOfDay now) ∧
         getRunsCount runs (startOfDay now - 86400) (startOfDay now) <
           getRunsCount runs (startOfDay now) now))) ∧
    (((costTodayEntry runs now).trend = "neutral" ↔
        (getTotalCost runs (startOfDay now - 86400) (startOfDay now) ≤ 0 ∨
         getTotalCost runs (startOfDay now) now =
           getTotalCost runs (startOfDay now - 86400) (startOfDay now))) ∧
      ((costTodayEntry runs now).trend = "up" ↔
        (0 < getTotalCost runs (startOfDay now - 86400) (startOfDay now) ∧
         getTotalCost runs (startOfDay now - 86400) (startOfDay now) <
           getTotalCost runs (startOfDay now) now))) ∧
    ∀ l, getDashboardStats runs now = .ok l →
      l.get? 1 = some (runsTodayEntry runs now) ∧
      l.get? 3 = some (costTodayEntry runs now) := by
  refine ⟨?_, ?_, ?_⟩
  · set rt := getRunsCount runs (startOfDay now) now with hrt
    set ry := getRunsCount runs (startOfDay now - 86400) (startOfDay now) with hry
    simp only [runsTodayEntry, ← hrt, ← hry]
    by_cases hy : 0 < ry
    · have hyq : (0 : ℚ) < (ry : ℚ) := by exact_mod_cast hy
      rw [if_pos hy]
      have hiffs := trend_chain_iffs (((rt : ℚ) - (ry : ℚ)) / (ry : ℚ) * 100)
      constructor
      · rw [hiffs.1, pct_zero_iff (rt : ℚ) (ry : ℚ) hyq]
        rw [Nat.cast_inj]
        constructor
        · exact Or.inr
        · rintro (h | h)
          · omega
          · exact h
      · rw [hiffs.2, pct_pos_iff (rt : ℚ) (ry : ℚ) hyq]
        rw [Nat.cast_lt]
        constructor
        · exact fun h => ⟨hy, h⟩
        · exact fun h => h.2
    · have hy0 : ry = 0 := by omega
      rw [if_neg hy]
      have hiffs := trend_chain_iffs (0 : ℚ)
      constructor
      · rw [hiffs.1]
        constructor
        · exact fun _ => Or.inl hy0
        · exact fun _ => rfl
      · rw [hiffs.2]
        constructor
        · intro h
          norm_num at h
        · rintro ⟨h, -⟩
          omega
  · set ct := getTotalCost runs (startOfDay now) now with hct
    set cy := getTotalCost runs (startOfDay now - 86400) (startOfDay now) with hcy
    simp only [costTodayEntry, ← hct, ← hcy]
    by_cases hy : 0 < cy
    · rw [if_pos hy]
      have hiffs := trend_chain_iffs ((ct - cy) / cy * 100)
      constructor
      · rw [hiffs.1, pct_zero_iff ct cy hy]
        constructor
        · exact Or.inr
        · rintro (h | h)
          · exact absurd hy (not_lt.mpr h)
          · exact h
      · rw [hiffs.2, pct_pos_iff ct cy hy]
        constructor
        · exact fun h => ⟨hy, h⟩
        · exact fun h => h.2
    · rw [if_neg hy]
      have hiffs := trend_chain_iffs (0 : ℚ)
      constructor
      · rw [hiffs.1]
        constructor
        · exact fun _ => Or.inl (not_lt.mp hy)
        · exact fun _ => rfl
      · rw [hiffs.2]
        constructor
        · intro h
          norm_num at h
        · rintro ⟨h, -⟩
          exact absurd h hy
  · intro l hd
    rcases getDashboardStats_entries runs now l hd with ⟨aN, aP, _, _, hl⟩
    rw [hl]
    exact ⟨rfl, rfl⟩

/-! Section: C6: duration normalization in the average-response-time query -/

theorem collectNormalized_error (l : List AgentRun)
    (h : ∃ r ∈ l, exceptIsError (normalizeTimeTaken r.timeTaken) = true) :
    exceptIsError (collectNormalized l) = true := by
  induction l with
  | nil =>
    rcases h with ⟨r, hr, _⟩
    cases hr
  | cons a rest ih =>
    rcases h with ⟨r, hr, herr⟩
    rcases List.mem_cons.mp hr with heq | hmem
    · subst heq
      show exceptIsError ((normalizeTimeTaken r.timeTaken).bind _) = true
      rcases hn : normalizeTimeTaken r.timeTaken with msg | v
      · rfl
      · rw [hn] at herr
        cases herr
    · show exceptIsError ((normalizeTimeTaken a.timeTaken).bind _) = true
      rcases hn : normalizeTimeTaken a.timeTaken with msg | v
      · rfl
      · have hrest := ih ⟨r, hmem, herr⟩
        show exceptIsError ((collectNormalized rest).map _) = true
        rcases hc : collectNormalized rest with msg2 | vs
        · rfl
        · rw [hc] at hrest
          cases hrest

theorem collectNormalized_all_ok (l : List AgentRun) (f : AgentRun → ℚ)
    (h : ∀ r ∈ l, normalizeTimeTaken r.timeTaken = .ok (some (f r))) :
    collectNormalized l = .ok (l.map (fun r => some (f r))) := by
  induction l with
  | nil => rfl
  | cons a rest ih =>
    show (normalizeTimeTaken a.timeTaken).bind _ = _
    rw [h a (List.mem_cons_self a rest),
      ih (fun r hr => h r (List.mem_cons_of_mem a hr))]
    rfl

theorem filterMap_id_map_some {α : Type} (l : List α) (f : α → ℚ) :
    (l.map (fun r => some (f r))).filterMap id = l.map f := by
  induction l with
  | nil => rfl
  | cons a rest ih =>
    simp [List.filterMap_cons, ih]

set_option allowUnsafeReducibility true
section RatEval
attribute [local semireducible] Rat.add Rat.mul Rat.inv Rat.sub

/-- C6 (amended).  In `getAvgResponseTime`, only string (or null)
`time_taken` values are handled: if every matched run's `time_taken`
normalizes to a numeric value (as `"3.2s"` does, to 3.2), the query returns
their mean — but any matched run whose normalization errors (a *numeric*
`time_taken`, rejected by `$replaceAll`, or an unparseable string, rejected
by `$toDouble`) fails the whole query instead of contributing no value.  In
particular a numeric 3.2 is never averaged with a string `"3.2s"`. -/
theorem avg_response_normalization (runs : List AgentRun) (start stop : Int) :
    ((∃ r ∈ windowRuns runs start stop,
        exceptIsError (normalizeTimeTaken r.timeTaken) = true) →
      exceptIsError (getAvgResponseTime runs start stop) = true) ∧
    (∀ f : AgentRun → ℚ,
      (∀ r ∈ windowRuns runs start stop,
        normalizeTimeTaken r.timeTaken = .ok (some (f r))) →
      windowRuns runs start stop ≠ [] →
      getAvgResponseTime runs start stop =
        .ok (((windowRuns runs start stop).map f).sum /
          ((windowRuns runs start stop).length : ℚ))) ∧
    (∀ q : ℚ, exceptIsError (normalizeTimeTaken (.num q)) = true) ∧
    normalizeTimeTaken (.str "3.2s") = .ok (some (16 / 5)) := by
  refine ⟨?_, ?_, ?_, ?_⟩
  · intro h
    have herr := collectNormalized_error _ h
    show exceptIsError ((collectNormalized (windowRuns runs start stop)).bind _) = true
    rcases hc : collectNormalized (windowRuns runs start stop) with msg | vs
    · rfl
    · rw [hc] at herr
      cases herr
  · intro f hall hne
    show (collectNormalized (windowRuns runs start stop)).bind _ = _
    rw [collectNormalized_all_ok _ f hall]
    show (if (windowRuns runs start stop).isEmpty then _ else _) = _
    have hempty : (windowRuns runs start stop).isEmpty = false := by
      rcases hw : windowRuns runs start stop with _ | ⟨a, rest⟩
      · exact absurd hw hne
      · rfl
    rw [hempty]
    show (if (((windowRuns runs start stop).map (fun r => some (f r))).filterMap
        id).isEmpty = true then _ else _) = _
    rw [filterMap_id_map_some]
    have hempty2 : ((windowRuns runs start stop).map f).isEmpty = false := by
      rcases hw : windowRuns runs start stop with _ | ⟨a, rest⟩
      · exact absurd hw hne
      · rfl
    rw [hempty2]
    show Except.ok _ = _
    rw [List.length_map]
  · intro q
    rfl
  · decide

/-! Section: Witnesses and counterexamples -/

/-- C1 witness: the spec §8 scenario (one success, one error) upserts a
document with success rate (2−1)/2×100 = 50. -/
theorem aggregator_success_rate_witness :
    workUnit noFaults (some c1wAgent) c1wVersion c1wRuns = .upserted c1wDoc ∧
    c1wDoc.successRate =
      ((((runsForVersion c1wRuns c1wVersion.id).length : ℚ) -
        (((runsForVersion c1wRuns c1wVersion.id).filter
          (fun r => decide (r.status = "error"))).length : ℚ)) /
        ((runsForVersion c1wRuns c1wVersion.id).length : ℚ)) * 100 ∧
    c1wDoc.successRate = 50 := by
  refine ⟨by decide, ?_, by decide⟩
  exact (aggregator_success_rate c1wAgent c1wVersion c1wRuns).1 (by decide) c1wDoc (by decide)

/-- C1 counterexample: with zero runs the worker abandons the unit at the
last-seen query and upserts nothing, so no success-rate value — in
particular not the claimed sentinel 0 — is ever written. -/
theorem aggregator_success_rate_cex :
    (runsForVersion ([] : List AgentRun) c1cVersion.id).length = 0 ∧
    workUnit noFaults (some c1cAgent) c1cVersion [] = .skipped ∧
    (outcomeDoc (workUnit noFaults (some c1cAgent) c1cVersion [])).map
      (fun m => m.successRate) = none := by
  decide

/-- C2 witness: the upserted `lastSeen` (20) is one of the runs'
`recorded_at` values. -/
theorem aggregator_last_seen_witness :
    workUnit noFaults (some c2wAgent) c2wVersion c2wRuns = .upserted c2wDoc ∧
    c2wDoc.lastSeen ∈
      (runsForVersion c2wRuns c2wVersion.id).map (fun r => r.recordedAt) := by
  refine ⟨by decide, ?_⟩
  exact (aggregator_last_seen c2wAgent c2wVersion c2wRuns c2wDoc (by decide)).1

/-- C2 counterexample: a run with `created = 5` but `recorded_at = 10`
yields an upserted `lastSeen` of 10, not the maximum `created` time 5. -/
theorem aggregator_last_seen_cex :
    workUnit noFaults (some c2cAgent) c2cVersion c2cRuns = .upserted c2cDoc ∧
    lastSeenQuery ((runsForVersion c2cRuns c2cVersion.id).map (fun r => r.created)) =
      some 5 ∧
    c2cDoc.lastSeen = 10 ∧ c2cDoc.lastSeen ≠ 5 := by
  decide

/-- C4 witness: previous average 1, current average 2 (strict increase) —
the reported trend is `"up"`. -/
theorem dashboard_response_trend_witness :
    ((getDashboardStats c4wRuns 200000).toOption.bind (fun l => l.get? 2)).map
      (fun entry => entry.trend) = some "up" := by
  rcases hd : getDashboardStats c4wRuns 200000 with msg | l
  · have hne : exceptIsError (getDashboardStats c4wRuns 200000) = false := by decide
    rw [hd] at hne
    cases hne
  · have h := dashboard_response_trend c4wRuns 200000 2 1 l (by decide) (by decide) hd
    have htrend := (h.2.2.1 (by norm_num)).1
    show (l.get? 2).map (fun entry => entry.trend) = some "up"
    rw [h.1]
    show some (responseEntry 2 1).trend = some "up"
    rw [htrend]

/-- C4 counterexample: previous average 2, current average 1 — the average
strictly decreased, yet the reported trend is `"down"`, not the claimed
`"up"`. -/
theorem dashboard_response_trend_cex :
    (getAvgResponseTime c4cRuns 196400 200000).toOption = some 1 ∧
    (getAvgResponseTime c4cRuns 192800 196400).toOption = some 2 ∧
    ((getDashboardStats c4cRuns 200000).toOption.bind (fun l => l.get? 2)).map
      (fun entry => entry.trend) = some "down" := by
  decide

/-- C5 witness: with one run yesterday and two today (and cost 1 vs 2) both
percent-change trends are `"up"`. -/
theorem dashboard_percent_trends_witness :
    (runsTodayEntry c5wRuns 100000).trend = "up" ∧
    (costTodayEntry c5wRuns 100000).trend = "up" := by
  have h := dashboard_percent_trends c5wRuns 100000
  exact ⟨h.1.2.mpr (by decide), h.2.1.2.mpr (by decide)⟩

/-- C5 counterexample: five runs today (cost 5) against a zero comparison
window — the values differ (5 > 0) yet both trends are `"neutral"`, refuting
“neutral iff equal” and “up iff current > previous”. -/
theorem dashboard_percent_trends_cex :
    getRunsCount c5cRuns 86400 100000 = 5 ∧
    getRunsCount c5cRuns 0 86400 = 0 ∧
    getTotalCost c5cRuns 86400 100000 = 5 ∧
    getTotalCost c5cRuns 0 86400 = 0 ∧
    ((getDashboardStats c5cRuns 100000).toOption.bind (fun l => l.get? 1)).map
      (fun entry => entry.trend) = some "neutral" ∧
    ((getDashboardStats c5cRuns 100000).toOption.bind (fun l => l.get? 3)).map
      (fun entry => entry.trend) = some "neutral" := by
  decide

/-- C6 witness: a window of two parseable duration strings (`"1s"`, `"2s"`)
averages to 3/2. -/
theorem avg_response_normalization_witness :
    getAvgResponseTime c6wRuns 0 10 = .ok (3 / 2) := by
  have h := (avg_response_normalization c6wRuns 0 10).2.1 c6wF (by decide) (by decide)
  rw [h]
  decide

/-- C6 counterexample: the string `"3.2s"` normalizes to 3.2, but the
numeric 3.2 makes `$replaceAll` error, and a window containing both fails as
a whole instead of averaging them to 3.2. -/
theorem avg_response_normalization_cex :
    normalizeTimeTaken (.str "3.2s") = .ok (some (16 / 5)) ∧
    exceptIsError (normalizeTimeTaken (.num (16 / 5))) = true ∧
    exceptIsError (getAvgResponseTime c6cRuns 0 10) = true := by
  decide

/-- C7 witness: two versions, version 9's run-count query fails — the pass
succeeds, version 9's document stays absent and version 7's document is
still correctly upserted. -/
theorem aggregation_unit_isolation_witness :
    (runPass c7Faults c7Agents c7Versions c7Runs (fun _ => none)).toOption.map
      (fun s => (s 9, s 7)) = some (none, some c7Doc) := by
  rcases hok : runPass c7Faults c7Agents c7Versions c7Runs (fun _ => none) with msg | s
  · have hne : exceptIsError
        (runPass c7Faults c7Agents c7Versions c7Runs (fun _ => none)) = false := by
      decide
    rw [hok] at hne
    cases hne
  · have h := aggregation_unit_isolation c7Faults c7Agents c7Versions c7Runs
      (fun _ => none) s c7v9 (by decide) (by decide) hok (by decide) (by decide)
    have h7 := h.2 c7v7 (by decide) (by decide) c7Doc (by decide)
    have h9 : s 9 = none := h.1
    have h7x : s 7 = some c7Doc := h7
    show some (s 9, s 7) = some (none, some c7Doc)
    rw [h9, h7x]

/-- C8 witness: a one-version pass from the empty store; the second pass
over its result succeeds and both passes hold the same document under
key 7. -/
theorem aggregation_idempotent_witness :
    (runPass (fun _ => noFaults) c8Agents [c8Version] c8Runs (fun _ => none)).toOption.bind
      (fun s1 => (runPass (fun _ => noFaults) c8Agents [c8Version] c8Runs s1).toOption.map
        (fun s2 => (s1 7, s2 7))) = some (some c8Doc, some c8Doc) := by
  rcases h1 : runPass (fun _ => noFaults) c8Agents [c8Version] c8Runs (fun _ => none) with
    msg | s1
  · have hne : exceptIsError
        (runPass (fun _ => noFaults) c8Agents [c8Version] c8Runs (fun _ => none)) =
        false := by
      decide
    rw [h1] at hne
    cases hne
  · have h2 := aggregation_idempotent (fun _ => noFaults) c8Agents [c8Version] c8Runs
      (fun _ => none) s1 h1
    have hs17 : s1 7 = some c8Doc := by
      have hchar := runPass_char (fun _ => noFaults) c8Agents c8Runs [c8Version]
        (fun _ => none) s1 h1 7
      rw [hchar]
      decide
    simp [Except.toOption, h2, hs17]

/-- C9 witness: two runs today render as `"2"`, which agrees with spec-style
grouping. -/
theorem total_runs_value_grouped_witness :
    totalRunsTodayValue c9wRuns 100000 =
      specGroupedNumber (getRunsCount c9wRuns (startOfDay 100000) 100000) ∧
    totalRunsTodayValue c9wRuns 100000 = "2" := by
  refine ⟨(total_runs_value_grouped c9wRuns 100000 (by decide)).1, by decide⟩

/-- C9 counterexample: at 1234567 the source emits a single comma
(`"1234,567"`), not full grouping (`"1,234,567"`). -/
theorem total_runs_value_grouped_cex :
    formatNumber 1234567 = "1234,567" ∧
    specGroupedNumber 1234567 = "1,234,567" ∧
    formatNumber 1234567 ≠ specGroupedNumber 1234567 := by
  decide

/-- C10 witness: at a concrete snapshot the 48-hour distinct-agent count is
bounded by the last-week count and the trend is not `"up"`. -/
theorem active_agents_trend_never_up_witness :
    getActiveAgentsCount c10wRuns (100000 - 172800) ≤
      getActiveAgentsCount c10wRuns (startOfDay 100000 - 604800) ∧
    (activeAgentsEntry c10wRuns 100000).trend ≠ "up" := by
  have h := active_agents_trend_never_up c10wRuns 100000
  exact ⟨h.1, h.2.1⟩

end RatEval
